import Mathlib

set_option maxHeartbeats 1000000

/-!
Verification of the banking ledger core of `accounts/views.py`.

The data model and the model-layer operations (`deposit`, `withdraw`,
`get_minimum_balance`, `get_balance`, transaction ordering) live in
`accounts/models.py`, which is not part of the source tree given here; those
definitions are modelled from the specification (§3, §4.1, §4.4) and are marked
`Modelled from the spec:` in their doc comments.  Everything else — account
lookup, the deposit/withdraw/transfer views, account creation, and the
dashboard aggregation — is translated directly from `accounts/views.py`.

Monetary amounts are exact decimals in the source (Python `Decimal`); all the
properties below concern only ordering and additive arithmetic, so they are
embedded as `Int`.  Timestamps (`auto_now_add`) are embedded as a store clock
that increases at every transaction insertion; the spec (§3) says ties are
broken by insertion order.
-/

inductive TransactionType where
  | DEPOSIT
  | WITHDRAWAL
  | TRANSFER_IN
  | TRANSFER_OUT
deriving DecidableEq

structure Transaction where
  account : Nat
  transaction_type : TransactionType
  amount : Int
  description : String
  timestamp : Nat
  balance_after : Int
deriving DecidableEq

inductive AccountKind where
  | savings
  | current
deriving DecidableEq

structure Account where
  account_number : Nat
  customer : Nat
  kind : AccountKind
  balance : Int
  is_active : Bool
deriving DecidableEq

/-- The durable store: the account rows of both variant tables (distinguished
by the `kind` discriminator), the transaction table, and the insertion clock. -/
structure Bank where
  accounts : List Account
  ledger : List Transaction
  clock : Nat
deriving DecidableEq

/-- Error taxonomy of the spec (§7).  `SelfTransferNotAllowed` is listed by the
spec; `StoreError` stands for any other store-level exception (for example
`Transaction.DoesNotExist` raised by `.latest()` on an empty history). -/
inductive BankError where
  | InvalidAmount
  | InsufficientFunds
  | AccountNotFound
  | SelfTransferNotAllowed
  | StoreError
deriving DecidableEq

/-- Modelled from the spec: `accounts/models.py` is not under `src/`.
§3 and §8 — `SavingsAccount` has a fixed positive minimum balance; the spec's
scenarios use 500. -/
def SAVINGS_MINIMUM_BALANCE : Int := 500

/-- Modelled from the spec: polymorphic `get_minimum_balance` (§4.1) —
Savings returns the fixed positive constant, Current returns a zero floor
(§8 scenario: "Current account with minimumBalance=0"). -/
def get_minimum_balance (a : Account) : Int :=
  match a.kind with
  | AccountKind.savings => SAVINGS_MINIMUM_BALANCE
  | AccountKind.current => 0

/-- Modelled from the spec: `get_balance` returns the current balance,
no side effect (§4.1). -/
def Account.get_balance (a : Account) : Int := a.balance

/-- Writing a mutated account object back to the store: the row with the same
account number in the same variant table is replaced (Django `save()` writes
the object's fields over its row). -/
def updateRow (l : List Account) (a : Account) : List Account :=
  l.map (fun b => if b.account_number = a.account_number ∧ b.kind = a.kind then a else b)

/-- Modelled from the spec: `deposit` (§4.1) — requires `amount > 0`
(`InvalidAmount` otherwise), adds to the balance, appends a DEPOSIT
transaction with `balanceAfter` the new balance.  It operates on the
in-memory account object `a` — which may be a stale snapshot of the stored
row — and writes the result back. -/
def Account.deposit (a : Account) (amount : Int) (s : Bank) :
    Except BankError (Bank × Account) :=
  if amount ≤ 0 then Except.error BankError.InvalidAmount
  else
    let a2 : Account := { a with balance := a.balance + amount }
    let t : Transaction :=
      { account := a.account_number, transaction_type := TransactionType.DEPOSIT,
        amount := amount, description := "Deposit", timestamp := s.clock,
        balance_after := a2.balance }
    let s2 : Bank :=
      { s with accounts := updateRow s.accounts a2,
               ledger := s.ledger ++ [t], clock := s.clock + 1 }
    Except.ok (s2, a2)

/-- Modelled from the spec: `withdraw` (§4.1) — requires `amount > 0` and
`balance - amount >= minimumBalance` (the only variant-specific check),
subtracts from the balance, appends a WITHDRAWAL transaction.  Like
`deposit` it operates on the in-memory account object. -/
def Account.withdraw (a : Account) (amount : Int) (s : Bank) :
    Except BankError (Bank × Account) :=
  if amount ≤ 0 then Except.error BankError.InvalidAmount
  else if a.balance - amount < get_minimum_balance a then
    Except.error BankError.InsufficientFunds
  else
    let a2 : Account := { a with balance := a.balance - amount }
    let t : Transaction :=
      { account := a.account_number, transaction_type := TransactionType.WITHDRAWAL,
        amount := amount, description := "Withdrawal", timestamp := s.clock,
        balance_after := a2.balance }
    let s2 : Bank :=
      { s with accounts := updateRow s.accounts a2,
               ledger := s.ledger ++ [t], clock := s.clock + 1 }
    Except.ok (s2, a2)

/-- The optional `customer=request.user` filter of the views' queries. -/
def ownerMatches (ow : Option Nat) (a : Account) : Bool :=
  match ow with
  | none => true
  | some u => a.customer == u

/-- The filter used by `SavingsAccount.objects.get(...)` /
`CurrentAccount.objects.get(...)` in the views: account number, variant,
`is_active=True`, and optionally the owner. -/
def accountMatches (k : AccountKind) (num : Nat) (ow : Option Nat) (a : Account) : Bool :=
  decide (a.kind = k ∧ a.account_number = num ∧ a.is_active = true) && ownerMatches ow a

def findAccount (s : Bank) (k : AccountKind) (num : Nat) (ow : Option Nat) : Option Account :=
  s.accounts.find? (accountMatches k num ow)

/-- The views' lookup pattern (`views.py:170-188`, `218-232`, `266-282`,
`318-335`, `344-353`): try `SavingsAccount`, on `DoesNotExist` try
`CurrentAccount`, else the operation fails with account-not-found. -/
def lookupAccount (s : Bank) (num : Nat) (ow : Option Nat) : Option Account :=
  match findAccount s AccountKind.savings num ow with
  | some a => some a
  | none => findAccount s AccountKind.current num ow

def latestTxnFrom (num : Nat) : List Transaction → Nat → Option (Nat × Transaction)
  | [], _ => none
  | t :: rest, i =>
    match latestTxnFrom num rest (i + 1) with
    | none => if t.account = num then some (i, t) else none
    | some (j, b) =>
      if t.account = num ∧ b.timestamp < t.timestamp then some (i, t) else some (j, b)

/-- Django `account.transactions.latest('timestamp')` over the ledger: the
row of the given account with the greatest timestamp, ties broken towards the
most recently inserted row (§3: "ties broken by insertion order"), together
with its position in the ledger. -/
def latestTxn (l : List Transaction) (num : Nat) : Option (Nat × Transaction) :=
  latestTxnFrom num l 0

/-- `deposit_money` (`views.py:209-256`): resolve the account (owned by the
caller, active), then call the polymorphic `deposit`; on an exception the
store is left as it was and an error message is shown. -/
def deposit_money (s : Bank) (user account_number : Nat) (amount : Int) :
    Bank × Option BankError :=
  match lookupAccount s account_number (some user) with
  | none => (s, some BankError.AccountNotFound)
  | some account =>
    match account.deposit amount s with
    | Except.ok (s2, _) => (s2, none)
    | Except.error e => (s, some e)

/-- `withdraw_money` (`views.py:259-309`): resolve the account (owned by the
caller, active), then call the polymorphic `withdraw`. -/
def withdraw_money (s : Bank) (user account_number : Nat) (amount : Int) :
    Bank × Option BankError :=
  match lookupAccount s account_number (some user) with
  | none => (s, some BankError.AccountNotFound)
  | some account =>
    match account.withdraw amount s with
    | Except.ok (s2, _) => (s2, none)
    | Except.error e => (s, some e)

/-- The in-place relabeling `views.py:365-373` applies through `save()`:
the row keeps its account, amount, timestamp and balance snapshot, and only
`description` and `transaction_type` are rewritten. -/
def relabel (t : Transaction) (ty : TransactionType) (d : String) : Transaction :=
  { t with description := d, transaction_type := ty }

/-- The body of the `with db_transaction.atomic():` block of `transfer_money`
(`views.py:357-373`): withdraw from the sender, deposit to the recipient,
then relabel the two freshly created transaction rows via
`transactions.latest('timestamp')`.  Any error aborts the block. -/
def transferAtomic (s : Bank) (from_account to_account : Account)
    (from_number to_number : Nat) (amount : Int) (description : String) :
    Except BankError Bank :=
  match from_account.withdraw amount s with
  | Except.error e => Except.error e
  | Except.ok (s1, _) =>
    match to_account.deposit amount s1 with
    | Except.error e => Except.error e
    | Except.ok (s2, _) =>
      match latestTxn s2.ledger from_account.account_number with
      | none => Except.error BankError.StoreError
      | some p =>
        match latestTxn (s2.ledger.set p.1 (relabel p.2 TransactionType.TRANSFER_OUT
            ("Transfer to " ++ toString to_number ++ ": " ++ description)))
            to_account.account_number with
        | none => Except.error BankError.StoreError
        | some q =>
          Except.ok { s2 with ledger :=
            ((s2.ledger.set p.1 (relabel p.2 TransactionType.TRANSFER_OUT
              ("Transfer to " ++ toString to_number ++ ": " ++ description))).set q.1
              (relabel q.2 TransactionType.TRANSFER_IN
                ("Transfer from " ++ toString from_number ++ ": " ++ description))) }

/-- `transfer_money` (`views.py:312-392`): resolve the sender among the
caller's own active accounts, the recipient among all active accounts, then
run the atomic block; on any error inside the block the store rolls back to
its pre-call state. -/
def transfer_money (s : Bank) (user : Nat) (account_number to_account_number : Nat)
    (amount : Int) (description : String) : Bank × Option BankError :=
  match lookupAccount s account_number (some user) with
  | none => (s, some BankError.AccountNotFound)
  | some from_account =>
    match lookupAccount s to_account_number none with
    | none => (s, some BankError.AccountNotFound)
    | some to_account =>
      match transferAtomic s from_account to_account account_number to_account_number
          amount description with
      | Except.ok s2 => (s2, none)
      | Except.error e => (s, some e)

/-- `create_account` (`views.py:118-161`): create the row with zero balance,
then record the opening credit through the polymorphic `deposit`.  There is no
atomic block here: if the deposit fails the freshly created row persists.
The unique account number generation lives in the absent `models.py`
(modelled from the spec §3: unique, generated at creation), so the fresh
number is a parameter. -/
def create_account (s : Bank) (user : Nat) (k : AccountKind) (new_number : Nat)
    (initial_deposit : Int) : Bank × Option BankError :=
  let a0 : Account :=
    { account_number := new_number, customer := user, kind := k,
      balance := 0, is_active := true }
  let s1 : Bank := { s with accounts := s.accounts ++ [a0] }
  match a0.deposit initial_deposit s1 with
  | Except.ok (s2, _) => (s2, none)
  | Except.error e => (s1, some e)

/-- Descending-timestamp comparison used for sorting transactions newest
first. -/
def descByTs (a b : Transaction) : Prop := b.timestamp ≤ a.timestamp

instance : DecidableRel descByTs := fun a b =>
  inferInstanceAs (Decidable (b.timestamp ≤ a.timestamp))

instance : IsTotal Transaction descByTs :=
  ⟨fun a b => Nat.le_total b.timestamp a.timestamp⟩

instance : IsTrans Transaction descByTs :=
  ⟨fun _ _ _ h1 h2 => Nat.le_trans h2 h1⟩

/-- Modelled from the spec: the default ordering of `account.transactions.all()`
is most-recent-first (§4.4), declared on the absent `Transaction` model. -/
def account_txns_desc (s : Bank) (num : Nat) : List Transaction :=
  List.insertionSort descByTs (s.ledger.filter (fun t => t.account == num))

/-- `dashboard` (`views.py:89-90`): the caller's active savings accounts. -/
def savings_accounts_of (s : Bank) (user : Nat) : List Account :=
  s.accounts.filter
    (fun a => decide (a.kind = AccountKind.savings ∧ a.customer = user ∧ a.is_active = true))

/-- `dashboard` (`views.py:90`): the caller's active current accounts. -/
def current_accounts_of (s : Bank) (user : Nat) : List Account :=
  s.accounts.filter
    (fun a => decide (a.kind = AccountKind.current ∧ a.customer = user ∧ a.is_active = true))

/-- `dashboard` (`views.py:93-94`): total balance as the sum of
`get_balance()` over the active savings accounts plus the active current
accounts. -/
def dashboard_total_balance (s : Bank) (user : Nat) : Int :=
  ((savings_accounts_of s user).map Account.get_balance).sum
  + ((current_accounts_of s user).map Account.get_balance).sum

/-- `dashboard` (`views.py:97-101`): the merge pool — for each account, only
its 5 most recent transactions (`acc.transactions.all()[:5]`). -/
def recent_pool (s : Bank) (user : Nat) : List Transaction :=
  (((savings_accounts_of s user) ++ (current_accounts_of s user)).map
    (fun a => (account_txns_desc s a.account_number).take 5)).flatten

/-- `dashboard` (`views.py:97-105`): sort the pool by timestamp descending and
keep the first 10. -/
def recent_transactions (s : Bank) (user : Nat) : List Transaction :=
  (List.insertionSort descByTs (recent_pool s user)).take 10

/-- One user-initiated ledger operation, for stating properties of arbitrary
operation sequences. -/
inductive LedgerOp where
  | dep (user num : Nat) (amount : Int)
  | wd (user num : Nat) (amount : Int)
  | xfer (user fromNum toNum : Nat) (amount : Int) (d : String)

def applyOp (s : Bank) : LedgerOp → Bank
  | LedgerOp.dep u n a => (deposit_money s u n a).1
  | LedgerOp.wd u n a => (withdraw_money s u n a).1
  | LedgerOp.xfer u n m a d => (transfer_money s u n m a d).1

def applyOps (s : Bank) (ops : List LedgerOp) : Bank :=
  ops.foldl applyOp s

/-- Every stored account is at or above its variant's minimum-balance floor. -/
def BalInv (s : Bank) : Prop :=
  ∀ a ∈ s.accounts, get_minimum_balance a ≤ a.balance

instance (s : Bank) : Decidable (BalInv s) :=
  inferInstanceAs (Decidable (∀ a ∈ s.accounts, get_minimum_balance a ≤ a.balance))

/-- The account object after a successful `withdraw(amount)`. -/
def withdrawnAccount (a : Account) (amount : Int) : Account :=
  { a with balance := a.balance - amount }

/-- The account object after a successful `deposit(amount)`. -/
def depositedAccount (a : Account) (amount : Int) : Account :=
  { a with balance := a.balance + amount }

/-- The WITHDRAWAL row appended by a successful `withdraw(amount)`. -/
def withdrawalTxn (a : Account) (amount : Int) (ts : Nat) : Transaction :=
  { account := a.account_number, transaction_type := TransactionType.WITHDRAWAL,
    amount := amount, description := "Withdrawal", timestamp := ts,
    balance_after := a.balance - amount }

/-- The DEPOSIT row appended by a successful `deposit(amount)`. -/
def depositTxn (a : Account) (amount : Int) (ts : Nat) : Transaction :=
  { account := a.account_number, transaction_type := TransactionType.DEPOSIT,
    amount := amount, description := "Deposit", timestamp := ts,
    balance_after := a.balance + amount }

/-- The store after a successful `withdraw(amount)` on the snapshot `a`. -/
def afterWithdraw (a : Account) (amount : Int) (s : Bank) : Bank :=
  { s with accounts := updateRow s.accounts (withdrawnAccount a amount),
           ledger := s.ledger ++ [withdrawalTxn a amount s.clock],
           clock := s.clock + 1 }

/-- The store after a successful `deposit(amount)` on the snapshot `a`. -/
def afterDeposit (a : Account) (amount : Int) (s : Bank) : Bank :=
  { s with accounts := updateRow s.accounts (depositedAccount a amount),
           ledger := s.ledger ++ [depositTxn a amount s.clock],
           clock := s.clock + 1 }

/-- The withdrawal row after the transfer relabeling. -/
def transferOutTxn (a : Account) (amount : Int) (to_number : Nat) (d : String)
    (ts : Nat) : Transaction :=
  { account := a.account_number, transaction_type := TransactionType.TRANSFER_OUT,
    amount := amount, description := "Transfer to " ++ toString to_number ++ ": " ++ d,
    timestamp := ts, balance_after := a.balance - amount }

/-- The deposit row after the transfer relabeling. -/
def transferInTxn (a : Account) (amount : Int) (from_number : Nat) (d : String)
    (ts : Nat) : Transaction :=
  { account := a.account_number, transaction_type := TransactionType.TRANSFER_IN,
    amount := amount, description := "Transfer from " ++ toString from_number ++ ": " ++ d,
    timestamp := ts, balance_after := a.balance + amount }

/-- The store after a successful transfer between two distinct account
numbers: sender debited, recipient credited, and the two new rows relabelled
TRANSFER_OUT / TRANSFER_IN. -/
def afterTransferNe (s : Bank) (fa ta : Account) (n m : Nat) (amount : Int)
    (d : String) : Bank :=
  { accounts := updateRow (updateRow s.accounts (withdrawnAccount fa amount))
                  (depositedAccount ta amount),
    ledger := s.ledger ++ [transferOutTxn fa amount m d s.clock,
                           transferInTxn ta amount n d (s.clock + 1)],
    clock := s.clock + 2 }

/-- The store after a successful transfer in which sender and recipient carry
the same account number: both relabeling steps select the deposit row (the
latest by timestamp), so the withdrawal row keeps type WITHDRAWAL and the
deposit row ends as TRANSFER_IN. -/
def afterTransferSelf (s : Bank) (fa ta : Account) (n : Nat) (amount : Int)
    (d : String) : Bank :=
  { accounts := updateRow (updateRow s.accounts (withdrawnAccount fa amount))
                  (depositedAccount ta amount),
    ledger := s.ledger ++ [withdrawalTxn fa amount s.clock,
                           transferInTxn ta amount n d (s.clock + 1)],
    clock := s.clock + 2 }

/-- A small concrete store: customer 1 owns savings account 1 (balance 1000),
customer 2 owns current account 2 (balance 0). -/
def bankA : Bank :=
  { accounts := [⟨1, 1, AccountKind.savings, 1000, true⟩,
                 ⟨2, 2, AccountKind.current, 0, true⟩],
    ledger := [], clock := 0 }

def mkTxn (acct ts : Nat) : Transaction :=
  { account := acct, transaction_type := TransactionType.DEPOSIT, amount := 1,
    description := "", timestamp := ts, balance_after := 0 }

/-- A concrete store for the dashboard claims: customer 1 owns savings
accounts 1 and 2 and current account 3; account 1 has eight transactions
(timestamps 10–17), account 2 five (1–5), account 3 three (6–8). -/
def bankB : Bank :=
  { accounts := [⟨1, 1, AccountKind.savings, 1000, true⟩,
                 ⟨2, 1, AccountKind.savings, 1000, true⟩,
                 ⟨3, 1, AccountKind.current, 0, true⟩],
    ledger := [mkTxn 1 10, mkTxn 1 11, mkTxn 1 12, mkTxn 1 13, mkTxn 1 14,
               mkTxn 1 15, mkTxn 1 16, mkTxn 1 17,
               mkTxn 2 1, mkTxn 2 2, mkTxn 2 3, mkTxn 2 4, mkTxn 2 5,
               mkTxn 3 6, mkTxn 3 7, mkTxn 3 8],
    clock := 100 }

/-! ## Lookup lemmas -/

theorem ownerMatches_some {u : Nat} {a : Account}
    (h : ownerMatches (some u) a = true) : a.customer = u := by
  simpa [ownerMatches] using h

theorem ownerMatches_of {ow : Option Nat} {a : Account}
    (h : ∀ u, ow = some u → a.customer = u) : ownerMatches ow a = true := by
  cases ow with
  | none => rfl
  | some u => simp [ownerMatches, h u rfl]

theorem findAccount_props {s : Bank} {k : AccountKind} {num : Nat} {ow : Option Nat}
    {a : Account} (h : findAccount s k num ow = some a) :
    a.kind = k ∧ a.account_number = num ∧ a.is_active = true ∧
      ownerMatches ow a = true ∧ a ∈ s.accounts := by
  have hp := List.find?_some h
  have hm := List.mem_of_find?_eq_some h
  unfold accountMatches at hp
  rw [Bool.and_eq_true, decide_eq_true_iff] at hp
  exact ⟨hp.1.1, hp.1.2.1, hp.1.2.2, hp.2, hm⟩

theorem lookupAccount_cases {s : Bank} {num : Nat} {ow : Option Nat} {a : Account}
    (h : lookupAccount s num ow = some a) :
    findAccount s AccountKind.savings num ow = some a ∨
      (findAccount s AccountKind.savings num ow = none ∧
        findAccount s AccountKind.current num ow = some a) := by
  unfold lookupAccount at h
  split at h
  · next b heq => exact Or.inl (by rw [heq]; exact h)
  · next heq => exact Or.inr ⟨heq, h⟩

theorem lookupAccount_props {s : Bank} {num : Nat} {ow : Option Nat} {a : Account}
    (h : lookupAccount s num ow = some a) :
    a.account_number = num ∧ a.is_active = true ∧ ownerMatches ow a = true ∧
      a ∈ s.accounts := by
  rcases lookupAccount_cases h with hf | ⟨-, hf⟩ <;>
    exact ⟨(findAccount_props hf).2.1, (findAccount_props hf).2.2.1,
      (findAccount_props hf).2.2.2.1, (findAccount_props hf).2.2.2.2⟩

/-! ## Success equations for the model-layer operations -/

theorem withdraw_ok (a : Account) (amount : Int) (s : Bank)
    (h1 : 0 < amount) (h2 : get_minimum_balance a ≤ a.balance - amount) :
    a.withdraw amount s
      = Except.ok (afterWithdraw a amount s, withdrawnAccount a amount) := by
  unfold Account.withdraw
  rw [if_neg (not_le.mpr h1), if_neg (not_lt.mpr h2)]
  rfl

theorem deposit_ok (a : Account) (amount : Int) (s : Bank) (h1 : 0 < amount) :
    a.deposit amount s
      = Except.ok (afterDeposit a amount s, depositedAccount a amount) := by
  unfold Account.deposit
  rw [if_neg (not_le.mpr h1)]
  rfl

theorem withdraw_ok_inv {a : Account} {amount : Int} {s s1 : Bank} {a2 : Account}
    (h : a.withdraw amount s = Except.ok (s1, a2)) :
    s1.accounts = updateRow s.accounts a2 ∧ a2.kind = a.kind ∧
      get_minimum_balance a2 ≤ a2.balance ∧ 0 < amount := by
  unfold Account.withdraw at h
  split at h
  · exact absurd h (by simp)
  · split at h
    · exact absurd h (by simp)
    · next h1 h2 =>
      rw [Except.ok.injEq, Prod.mk.injEq] at h
      obtain ⟨hs, hA⟩ := h
      subst hs
      subst hA
      exact ⟨rfl, rfl, not_lt.mp h2, not_le.mp h1⟩

theorem deposit_ok_inv {a : Account} {amount : Int} {s s1 : Bank} {a2 : Account}
    (h : a.deposit amount s = Except.ok (s1, a2)) :
    s1.accounts = updateRow s.accounts a2 ∧ a2.kind = a.kind ∧
      a2.balance = a.balance + amount ∧ 0 < amount := by
  unfold Account.deposit at h
  split at h
  · exact absurd h (by simp)
  · next h1 =>
    rw [Except.ok.injEq, Prod.mk.injEq] at h
    obtain ⟨hs, hA⟩ := h
    subst hs
    subst hA
    exact ⟨rfl, rfl, rfl, not_le.mp h1⟩

/-! ## Lemmas about `latestTxn` and positional list updates -/

theorem latestTxnFrom_pair_fst {num : Nat} {W D : Transaction} (i : Nat)
    (hW : W.account = num) (hD : D.account ≠ num) :
    latestTxnFrom num [W, D] i = some (i, W) := by
  simp [latestTxnFrom, hW, hD]

theorem latestTxnFrom_pair_snd {num : Nat} {W D : Transaction} (i : Nat)
    (hD : D.account = num) (hts : W.timestamp ≤ D.timestamp) :
    latestTxnFrom num [W, D] i = some (i + 1, D) := by
  have hn : ¬ (W.account = num ∧ D.timestamp < W.timestamp) :=
    fun hc => absurd hc.2 (not_lt.mpr hts)
  simp [latestTxnFrom, hD, hn]

theorem latestTxnFrom_append {num : Nat} {tail : List Transaction} {j : Nat}
    {b : Transaction} (old : List Transaction) (i : Nat)
    (h : latestTxnFrom num tail (i + old.length) = some (j, b))
    (hts : ∀ t ∈ old, ¬ b.timestamp < t.timestamp) :
    latestTxnFrom num (old ++ tail) i = some (j, b) := by
  induction old generalizing i with
  | nil => simpa using h
  | cons t rest ih =>
    have h1 : latestTxnFrom num tail ((i + 1) + rest.length) = some (j, b) := by
      have harith : (i + 1) + rest.length = i + (t :: rest).length := by
        simp [List.length_cons]
        omega
      rw [harith]
      exact h
    have h2 := ih (i + 1) h1 (fun u hu => hts u (List.mem_cons_of_mem _ hu))
    show latestTxnFrom num (t :: (rest ++ tail)) i = some (j, b)
    simp only [latestTxnFrom, h2]
    rw [if_neg]
    intro hc
    exact hts t (List.mem_cons_self t _) hc.2

theorem set_append_pair_fst (old : List Transaction) (a b c : Transaction) :
    (old ++ [a, b]).set old.length c = old ++ [c, b] := by
  induction old with
  | nil => rfl
  | cons t rest ih =>
    show t :: ((rest ++ [a, b]).set rest.length c) = t :: (rest ++ [c, b])
    exact congrArg _ ih

theorem set_append_pair_snd (old : List Transaction) (a b c : Transaction) :
    (old ++ [a, b]).set (old.length + 1) c = old ++ [a, c] := by
  induction old with
  | nil => rfl
  | cons t rest ih =>
    show t :: ((rest ++ [a, b]).set (rest.length + 1) c) = t :: (rest ++ [a, c])
    exact congrArg _ ih

theorem getElem?_append_pair_fst (old : List Transaction) (a b : Transaction) :
    (old ++ [a, b])[old.length]? = some a := by
  induction old with
  | nil => rfl
  | cons t rest ih => simpa using ih

theorem getElem?_append_pair_snd (old : List Transaction) (a b : Transaction) :
    (old ++ [a, b])[old.length + 1]? = some b := by
  induction old with
  | nil => rfl
  | cons t rest ih => simpa using ih

/-! ## Characterization of a successful transfer -/

theorem transferAtomic_ok_ne (s : Bank) (fa ta : Account) (n m : Nat) (amount : Int)
    (d : String)
    (hne : ta.account_number ≠ fa.account_number)
    (hamt : 0 < amount)
    (hfunds : get_minimum_balance fa ≤ fa.balance - amount)
    (hclock : ∀ t ∈ s.ledger, t.timestamp < s.clock) :
    transferAtomic s fa ta n m amount d
      = Except.ok (afterTransferNe s fa ta n m amount d) := by
  have hw := withdraw_ok fa amount s hamt hfunds
  have hd := deposit_ok ta amount (afterWithdraw fa amount s) hamt
  have hled2 : (afterDeposit ta amount (afterWithdraw fa amount s)).ledger
      = s.ledger ++ [withdrawalTxn fa amount s.clock, depositTxn ta amount (s.clock + 1)] := by
    show (s.ledger ++ [withdrawalTxn fa amount s.clock]) ++ [depositTxn ta amount (s.clock + 1)]
        = s.ledger ++ [withdrawalTxn fa amount s.clock, depositTxn ta amount (s.clock + 1)]
    rw [List.append_assoc]
    rfl
  have hlat1 : latestTxn (afterDeposit ta amount (afterWithdraw fa amount s)).ledger
      fa.account_number = some (s.ledger.length, withdrawalTxn fa amount s.clock) := by
    rw [hled2]
    unfold latestTxn
    refine latestTxnFrom_append s.ledger 0 ?_ ?_
    · rw [Nat.zero_add]
      exact latestTxnFrom_pair_fst _ rfl hne
    · intro t ht hlt
      have h' := hclock t ht
      rw [show (withdrawalTxn fa amount s.clock).timestamp = s.clock from rfl] at hlt
      omega
  have hset1 : (afterDeposit ta amount (afterWithdraw fa amount s)).ledger.set s.ledger.length
      (relabel (withdrawalTxn fa amount s.clock) TransactionType.TRANSFER_OUT
        ("Transfer to " ++ toString m ++ ": " ++ d))
      = s.ledger ++ [transferOutTxn fa amount m d s.clock, depositTxn ta amount (s.clock + 1)] := by
    rw [hled2, set_append_pair_fst]
    rfl
  have hlat2 : latestTxn (s.ledger ++ [transferOutTxn fa amount m d s.clock,
      depositTxn ta amount (s.clock + 1)]) ta.account_number
      = some (s.ledger.length + 1, depositTxn ta amount (s.clock + 1)) := by
    unfold latestTxn
    refine latestTxnFrom_append s.ledger 0 ?_ ?_
    · rw [Nat.zero_add]
      exact latestTxnFrom_pair_snd _ rfl (Nat.le_succ s.clock)
    · intro t ht hlt
      have h' := hclock t ht
      rw [show (depositTxn ta amount (s.clock + 1)).timestamp = s.clock + 1 from rfl] at hlt
      omega
  simp only [transferAtomic, hw, hd, hlat1, hset1, hlat2, set_append_pair_snd]
  rfl

theorem transferAtomic_ok_self (s : Bank) (fa ta : Account) (n m : Nat) (amount : Int)
    (d : String)
    (hsame : ta.account_number = fa.account_number)
    (hamt : 0 < amount)
    (hfunds : get_minimum_balance fa ≤ fa.balance - amount)
    (hclock : ∀ t ∈ s.ledger, t.timestamp < s.clock) :
    transferAtomic s fa ta n m amount d
      = Except.ok (afterTransferSelf s fa ta n amount d) := by
  have hw := withdraw_ok fa amount s hamt hfunds
  have hd := deposit_ok ta amount (afterWithdraw fa amount s) hamt
  have hled2 : (afterDeposit ta amount (afterWithdraw fa amount s)).ledger
      = s.ledger ++ [withdrawalTxn fa amount s.clock, depositTxn ta amount (s.clock + 1)] := by
    show (s.ledger ++ [withdrawalTxn fa amount s.clock]) ++ [depositTxn ta amount (s.clock + 1)]
        = s.ledger ++ [withdrawalTxn fa amount s.clock, depositTxn ta amount (s.clock + 1)]
    rw [List.append_assoc]
    rfl
  have hlat1 : latestTxn (afterDeposit ta amount (afterWithdraw fa amount s)).ledger
      fa.account_number = some (s.ledger.length + 1, depositTxn ta amount (s.clock + 1)) := by
    rw [hled2]
    unfold latestTxn
    refine latestTxnFrom_append s.ledger 0 ?_ ?_
    · rw [Nat.zero_add]
      exact latestTxnFrom_pair_snd _ hsame (Nat.le_succ s.clock)
    · intro t ht hlt
      have h' := hclock t ht
      rw [show (depositTxn ta amount (s.clock + 1)).timestamp = s.clock + 1 from rfl] at hlt
      omega
  have hset1 : (afterDeposit ta amount (afterWithdraw fa amount s)).ledger.set (s.ledger.length + 1)
      (relabel (depositTxn ta amount (s.clock + 1)) TransactionType.TRANSFER_OUT
        ("Transfer to " ++ toString m ++ ": " ++ d))
      = s.ledger ++ [withdrawalTxn fa amount s.clock,
          relabel (depositTxn ta amount (s.clock + 1)) TransactionType.TRANSFER_OUT
            ("Transfer to " ++ toString m ++ ": " ++ d)] := by
    rw [hled2, set_append_pair_snd]
  have hlat2 : latestTxn (s.ledger ++ [withdrawalTxn fa amount s.clock,
      relabel (depositTxn ta amount (s.clock + 1)) TransactionType.TRANSFER_OUT
        ("Transfer to " ++ toString m ++ ": " ++ d)]) ta.account_number
      = some (s.ledger.length + 1,
          relabel (depositTxn ta amount (s.clock + 1)) TransactionType.TRANSFER_OUT
            ("Transfer to " ++ toString m ++ ": " ++ d)) := by
    unfold latestTxn
    refine latestTxnFrom_append s.ledger 0 ?_ ?_
    · rw [Nat.zero_add]
      exact latestTxnFrom_pair_snd _ rfl (Nat.le_succ s.clock)
    · intro t ht hlt
      have h' := hclock t ht
      rw [show (relabel (depositTxn ta amount (s.clock + 1)) TransactionType.TRANSFER_OUT
        ("Transfer to " ++ toString m ++ ": " ++ d)).timestamp = s.clock + 1 from rfl] at hlt
      omega
  simp only [transferAtomic, hw, hd, hlat1, hset1, hlat2, set_append_pair_snd]
  rfl

theorem transfer_money_ok_ne (s : Bank) (user n m : Nat) (amount : Int) (d : String)
    (fa ta : Account)
    (hfa : lookupAccount s n (some user) = some fa)
    (hta : lookupAccount s m none = some ta)
    (hne : ta.account_number ≠ fa.account_number)
    (hamt : 0 < amount)
    (hfunds : get_minimum_balance fa ≤ fa.balance - amount)
    (hclock : ∀ t ∈ s.ledger, t.timestamp < s.clock) :
    transfer_money s user n m amount d = (afterTransferNe s fa ta n m amount d, none) := by
  simp only [transfer_money, hfa, hta,
    transferAtomic_ok_ne s fa ta n m amount d hne hamt hfunds hclock]

theorem transfer_money_ok_self (s : Bank) (user n m : Nat) (amount : Int) (d : String)
    (fa ta : Account)
    (hfa : lookupAccount s n (some user) = some fa)
    (hta : lookupAccount s m none = some ta)
    (hsame : ta.account_number = fa.account_number)
    (hamt : 0 < amount)
    (hfunds : get_minimum_balance fa ≤ fa.balance - amount)
    (hclock : ∀ t ∈ s.ledger, t.timestamp < s.clock) :
    transfer_money s user n m amount d = (afterTransferSelf s fa ta n amount d, none) := by
  simp only [transfer_money, hfa, hta,
    transferAtomic_ok_self s fa ta n m amount d hsame hamt hfunds hclock]

/-! ## Preservation of the minimum-balance floor -/

theorem min_balance_congr {a b : Account} (h : a.kind = b.kind) :
    get_minimum_balance a = get_minimum_balance b := by
  unfold get_minimum_balance
  rw [h]

theorem balInv_updateRow {l : List Account} {a : Account}
    (hl : ∀ b ∈ l, get_minimum_balance b ≤ b.balance)
    (ha : get_minimum_balance a ≤ a.balance) :
    ∀ b ∈ updateRow l a, get_minimum_balance b ≤ b.balance := by
  intro b hb
  unfold updateRow at hb
  rcases List.mem_map.mp hb with ⟨c, hc, rfl⟩
  split
  · exact ha
  · exact hl c hc

theorem balInv_deposit_money (s : Bank) (u n : Nat) (amount : Int)
    (h : BalInv s) : BalInv (deposit_money s u n amount).1 := by
  cases hfa : lookupAccount s n (some u) with
  | none => simpa [deposit_money, hfa] using h
  | some acc =>
    cases hdep : acc.deposit amount s with
    | error e => simpa [deposit_money, hfa, hdep] using h
    | ok p =>
      obtain ⟨s2, a2⟩ := p
      obtain ⟨hacc, hkind, hbal, hpos⟩ := deposit_ok_inv hdep
      have hmem := (lookupAccount_props hfa).2.2.2
      have ha2 : get_minimum_balance a2 ≤ a2.balance := by
        rw [min_balance_congr hkind, hbal]
        have := h acc hmem
        linarith
      have h2 : BalInv s2 := by
        intro b hb
        rw [hacc] at hb
        exact balInv_updateRow h ha2 b hb
      simpa [deposit_money, hfa, hdep] using h2

theorem balInv_withdraw_money (s : Bank) (u n : Nat) (amount : Int)
    (h : BalInv s) : BalInv (withdraw_money s u n amount).1 := by
  cases hfa : lookupAccount s n (some u) with
  | none => simpa [withdraw_money, hfa] using h
  | some acc =>
    cases hwd : acc.withdraw amount s with
    | error e => simpa [withdraw_money, hfa, hwd] using h
    | ok p =>
      obtain ⟨s2, a2⟩ := p
      obtain ⟨hacc, hkind, hmin, hpos⟩ := withdraw_ok_inv hwd
      have h2 : BalInv s2 := by
        intro b hb
        rw [hacc] at hb
        exact balInv_updateRow h hmin b hb
      simpa [withdraw_money, hfa, hwd] using h2

theorem balInv_transferAtomic {s s2 : Bank} {fa ta : Account} {n m : Nat}
    {amount : Int} {d : String}
    (h : BalInv s) (hta_mem : ta ∈ s.accounts)
    (hat : transferAtomic s fa ta n m amount d = Except.ok s2) :
    BalInv s2 := by
  unfold transferAtomic at hat
  split at hat
  · exact absurd hat (by simp)
  · next s1 a2 hw =>
    split at hat
    · exact absurd hat (by simp)
    · next s1b b2 hd =>
      obtain ⟨hacc1, hkind1, hmin1, hpos1⟩ := withdraw_ok_inv hw
      obtain ⟨hacc2, hkind2, hbal2, hpos2⟩ := deposit_ok_inv hd
      have hb2 : get_minimum_balance b2 ≤ b2.balance := by
        rw [min_balance_congr hkind2, hbal2]
        have := h ta hta_mem
        linarith
      have hinv2 : BalInv s1b := by
        intro b hb
        rw [hacc2, hacc1] at hb
        exact balInv_updateRow (balInv_updateRow h hmin1) hb2 b hb
      split at hat
      · exact absurd hat (by simp)
      · split at hat
        · exact absurd hat (by simp)
        · rw [Except.ok.injEq] at hat
          subst hat
          intro b hb
          exact hinv2 b hb

theorem balInv_transfer_money (s : Bank) (u n m : Nat) (amount : Int) (d : String)
    (h : BalInv s) : BalInv (transfer_money s u n m amount d).1 := by
  cases hfa : lookupAccount s n (some u) with
  | none => simpa [transfer_money, hfa] using h
  | some fa =>
    cases hta : lookupAccount s m none with
    | none => simpa [transfer_money, hfa, hta] using h
    | some ta =>
      cases hat : transferAtomic s fa ta n m amount d with
      | error e => simpa [transfer_money, hfa, hta, hat] using h
      | ok s2 =>
        have hmem := (lookupAccount_props hta).2.2.2
        have h2 := balInv_transferAtomic h hmem hat
        simpa [transfer_money, hfa, hta, hat] using h2

/-! ## Dashboard aggregation lemmas -/

theorem sum_filter_kind_split (l : List Account) (user : Nat) :
    ((l.filter (fun a => decide (a.kind = AccountKind.savings ∧ a.customer = user ∧
        a.is_active = true))).map Account.get_balance).sum
      + ((l.filter (fun a => decide (a.kind = AccountKind.current ∧ a.customer = user ∧
        a.is_active = true))).map Account.get_balance).sum
      = ((l.filter (fun a => decide (a.customer = user ∧
        a.is_active = true))).map Account.get_balance).sum := by
  induction l with
  | nil => rfl
  | cons a rest ih =>
    simp only [List.filter_cons]
    by_cases h1 : a.customer = user ∧ a.is_active = true
    · have hA : decide (a.customer = user ∧ a.is_active = true) = true :=
        decide_eq_true_eq.mpr h1
      cases hk : a.kind
      · have hS : decide (AccountKind.savings = AccountKind.savings ∧ a.customer = user ∧
            a.is_active = true) = true := decide_eq_true_eq.mpr ⟨rfl, h1.1, h1.2⟩
        have hC : ¬ decide (AccountKind.savings = AccountKind.current ∧ a.customer = user ∧
            a.is_active = true) = true := by
          rw [decide_eq_true_eq]
          rintro ⟨hc, -⟩
          cases hc
        rw [if_pos hS, if_neg hC, if_pos hA]
        simp only [List.map_cons, List.sum_cons]
        omega
      · have hS : ¬ decide (AccountKind.current = AccountKind.savings ∧ a.customer = user ∧
            a.is_active = true) = true := by
          rw [decide_eq_true_eq]
          rintro ⟨hc, -⟩
          cases hc
        have hC : decide (AccountKind.current = AccountKind.current ∧ a.customer = user ∧
            a.is_active = true) = true := decide_eq_true_eq.mpr ⟨rfl, h1.1, h1.2⟩
        rw [if_neg hS, if_pos hC, if_pos hA]
        simp only [List.map_cons, List.sum_cons]
        omega
    · have hA : ¬ decide (a.customer = user ∧ a.is_active = true) = true := by
        rw [decide_eq_true_eq]
        exact h1
      have hS : ¬ decide (a.kind = AccountKind.savings ∧ a.customer = user ∧
          a.is_active = true) = true := by
        rw [decide_eq_true_eq]
        rintro ⟨-, hc⟩
        exact h1 hc
      have hC : ¬ decide (a.kind = AccountKind.current ∧ a.customer = user ∧
          a.is_active = true) = true := by
        rw [decide_eq_true_eq]
        rintro ⟨-, hc⟩
        exact h1 hc
      rw [if_neg hS, if_neg hC, if_neg hA]
      exact ih

theorem lookupAccount_none {s : Bank} {num : Nat} {ow : Option Nat}
    (h : lookupAccount s num ow = none) :
    findAccount s AccountKind.savings num ow = none ∧
      findAccount s AccountKind.current num ow = none := by
  unfold lookupAccount at h
  split at h
  · next b heq => cases h
  · next heq => exact ⟨heq, h⟩

/-! ## Claim theorems -/

/-- Claim C1: whenever `transfer_money` reports an error — from the lookup, the
withdrawal, the deposit, or the relabeling step — the store it leaves behind is
exactly the pre-call store: both accounts' balances and both accounts'
transaction histories are unchanged, and no TRANSFER_OUT / TRANSFER_IN row is
left dangling.  (The withdrawal step runs strictly before the deposit step, so
an error there also means the deposit never executed.) -/
theorem transfer_money_error_rollback (s : Bank) (user n m : Nat) (amount : Int)
    (d : String) (e : BankError)
    (h : (transfer_money s user n m amount d).2 = some e) :
    (transfer_money s user n m amount d).1 = s := by
  cases hfa : lookupAccount s n (some user) with
  | none => simp [transfer_money, hfa]
  | some fa =>
    cases hta : lookupAccount s m none with
    | none => simp [transfer_money, hfa, hta]
    | some ta =>
      cases hat : transferAtomic s fa ta n m amount d with
      | ok s2 => simp [transfer_money, hfa, hta, hat] at h
      | error e2 => simp [transfer_money, hfa, hta, hat]

theorem transfer_money_error_rollback_witness :
    (transfer_money bankA 1 1 2 600 "x").1 = bankA :=
  transfer_money_error_rollback bankA 1 1 2 600 "x" BankError.InsufficientFunds (by decide)

/-- Claim C5: a lookup returns only an active account with the requested
number, owned by the requesting customer when an owner is given, and it
returns a CurrentAccount only when the SavingsAccount probe found nothing
(fixed deterministic order, Savings first); when it fails, no active account
matching the filters exists in the store.  The lookup is a pure query — it
takes the store and returns an optional row, mutating nothing. -/
theorem lookup_account_spec (s : Bank) (num : Nat) (ow : Option Nat) :
    (∀ a, lookupAccount s num ow = some a →
        a.is_active = true ∧ a.account_number = num ∧
          (∀ u, ow = some u → a.customer = u) ∧
          (a.kind = AccountKind.current →
            findAccount s AccountKind.savings num ow = none)) ∧
    (lookupAccount s num ow = none →
        ∀ a ∈ s.accounts, a.account_number = num → a.is_active = true →
          (∀ u, ow = some u → a.customer = u) → False) := by
  constructor
  · intro a h
    obtain ⟨hnum, hact, hown, hmem⟩ := lookupAccount_props h
    refine ⟨hact, hnum, ?_, ?_⟩
    · intro u hu
      subst hu
      exact ownerMatches_some hown
    · intro hcur
      rcases lookupAccount_cases h with hf | ⟨hnone, -⟩
      · have hks := (findAccount_props hf).1
        rw [hcur] at hks
        cases hks
      · exact hnone
  · intro hnone a hmem hnum hact hown
    obtain ⟨hs, hc⟩ := lookupAccount_none hnone
    have hOM := ownerMatches_of hown
    have hmatch : ∀ k, a.kind = k → accountMatches k num ow a = true := by
      intro k hk
      unfold accountMatches
      rw [Bool.and_eq_true, decide_eq_true_eq]
      exact ⟨⟨hk, hnum, hact⟩, hOM⟩
    cases hkind : a.kind with
    | savings => exact (List.find?_eq_none.mp hs a hmem) (hmatch _ hkind)
    | current => exact (List.find?_eq_none.mp hc a hmem) (hmatch _ hkind)

theorem lookup_account_spec_witness :
    (⟨1, 1, AccountKind.savings, 1000, true⟩ : Account).is_active = true :=
  ((lookup_account_spec bankA 1 (some 1)).1 ⟨1, 1, AccountKind.savings, 1000, true⟩
    (by decide)).1

/-- Claim C9: the dashboard's total balance is the sum of `get_balance()` over
the customer's active savings accounts plus their active current accounts,
which together are exactly the customer's active accounts — inactive accounts
contribute nothing.  The computation is a pure fold over the store. -/
theorem dashboard_total_balance_spec (s : Bank) (user : Nat) :
    dashboard_total_balance s user
      = ((s.accounts.filter (fun a => decide (a.customer = user ∧
          a.is_active = true))).map Account.get_balance).sum := by
  unfold dashboard_total_balance savings_accounts_of current_accounts_of
  exact sum_filter_kind_split s.accounts user

/-- Claim C2 counterexample: the code's own account-creation path builds a
savings account at balance 0 and records the opening credit through `deposit`,
which performs no floor check; an opening deposit of 100 completes successfully
and leaves the account at 100, below the savings floor of 500 — so completed
operations do not always reestablish `balance >= minimumBalance`. -/
theorem balance_floor_counterexample :
    (create_account ⟨[], [], 0⟩ 1 AccountKind.savings 100 100).2 = none ∧
    ¬ BalInv (create_account ⟨[], [], 0⟩ 1 AccountKind.savings 100 100).1 := by
  decide

/-- Claim C2 (amended): `withdraw` is the only floor-checked mutator, and it
never completes below the floor; consequently any store in which every account
already meets its floor keeps that property across every sequence of completed
deposit / withdraw / transfer operations.  (Deposits cannot reestablish the
floor for an account born below it — see the counterexample.) -/
theorem balance_floor_preserved (s : Bank) (ops : List LedgerOp) (h : BalInv s) :
    BalInv (applyOps s ops) := by
  induction ops generalizing s with
  | nil => exact h
  | cons op rest ih =>
    show BalInv (applyOps (applyOp s op) rest)
    apply ih
    cases op with
    | dep u n a => exact balInv_deposit_money s u n a h
    | wd u n a => exact balInv_withdraw_money s u n a h
    | xfer u n m a d => exact balInv_transfer_money s u n m a d h

theorem balance_floor_preserved_witness :
    BalInv (applyOps bankA [LedgerOp.dep 1 1 40, LedgerOp.wd 1 1 200,
      LedgerOp.xfer 1 1 2 300 "x"]) :=
  balance_floor_preserved bankA _ (by decide)

/-- Claim C3 counterexample: a transfer whose destination equals its source is
not rejected — it completes with no error — and it does mutate the account:
because the deposit step operates on a stale snapshot of the same row, the
balance rises from 1000 to 1200 on a self-transfer of 200. -/
theorem self_transfer_counterexample :
    (transfer_money bankA 1 1 1 200 "x").2 = none ∧
    ((transfer_money bankA 1 1 1 200 "x").1.accounts.map Account.get_balance)
      = [1200, 0] ∧
    bankA.accounts.map Account.get_balance = [1000, 0] := by
  decide

/-- Claim C3 (amended): the code contains no self-transfer check.  A transfer
with source equal to destination (active, owned by the caller, positive amount,
sufficient funds) completes successfully; the deposit is applied to the stale
pre-withdrawal snapshot, leaving the final state `afterTransferSelf` — the
account credited by the full amount, with a WITHDRAWAL row and a TRANSFER_IN
row appended (no TRANSFER_OUT row: both relabeling steps selected the deposit
row). -/
theorem self_transfer_not_rejected (s : Bank) (user n : Nat) (amount : Int)
    (d : String) (fa ta : Account)
    (hfa : lookupAccount s n (some user) = some fa)
    (hta : lookupAccount s n none = some ta)
    (hamt : 0 < amount)
    (hfunds : get_minimum_balance fa ≤ fa.balance - amount)
    (hclock : ∀ t ∈ s.ledger, t.timestamp < s.clock) :
    (transfer_money s user n n amount d).2 = none ∧
    (transfer_money s user n n amount d).1 = afterTransferSelf s fa ta n amount d := by
  have hsame : ta.account_number = fa.account_number := by
    rw [(lookupAccount_props hta).1, (lookupAccount_props hfa).1]
  rw [transfer_money_ok_self s user n n amount d fa ta hfa hta hsame hamt hfunds hclock]
  exact ⟨rfl, rfl⟩

theorem self_transfer_not_rejected_witness :
    (transfer_money bankA 1 1 1 200 "y").2 = none :=
  (self_transfer_not_rejected bankA 1 1 200 "y" ⟨1, 1, AccountKind.savings, 1000, true⟩
    ⟨1, 1, AccountKind.savings, 1000, true⟩ (by decide) (by decide) (by decide)
    (by decide) (by decide)).1

theorem map_updateRow_id (l : List Account) (a : Account)
    (hfresh : ∀ b ∈ l, b.account_number ≠ a.account_number) :
    l.map (fun b => if b.account_number = a.account_number ∧ b.kind = a.kind then a else b)
      = l := by
  induction l with
  | nil => rfl
  | cons b rest ih =>
    simp only [List.map_cons]
    rw [if_neg (fun hc => hfresh b (List.mem_cons_self b rest) hc.1),
      ih (fun c hc => hfresh c (List.mem_cons_of_mem _ hc))]

theorem updateRow_append_fresh (l : List Account) (a0 a1 : Account)
    (heq : a1.account_number = a0.account_number) (hk : a1.kind = a0.kind)
    (hfresh : ∀ b ∈ l, b.account_number ≠ a1.account_number) :
    updateRow (l ++ [a0]) a1 = l ++ [a1] := by
  unfold updateRow
  rw [List.map_append, map_updateRow_id l a1 hfresh]
  congr 1
  simp only [List.map_cons, List.map_nil]
  rw [if_pos ⟨heq.symm, hk.symm⟩]

/-- Claim C4 counterexample: in a successful self-transfer both relabeling
steps select the deposit row (the account's latest), so the withdrawal row
created by the transfer keeps type WITHDRAWAL — it never becomes TRANSFER_OUT —
and the deposit row is mutated twice before ending as TRANSFER_IN. -/
theorem transfer_relabel_counterexample :
    (transfer_money bankA 1 1 1 200 "x").2 = none ∧
    ((transfer_money bankA 1 1 1 200 "x").1.ledger.map (fun t => t.transaction_type))
      = [TransactionType.WITHDRAWAL, TransactionType.TRANSFER_IN] := by
  decide

/-- Claim C4 (amended): for every successful transfer between two distinct
account numbers, the withdrawal row ends as TRANSFER_OUT with description
"Transfer to {destination}: {description}" and the deposit row ends as
TRANSFER_IN with description "Transfer from {source}: {description}"
(`transferOutTxn` / `transferInTxn`), and these relabelings are the only
post-creation mutations applied to any transaction row.  When source and
destination coincide, the withdrawal row instead keeps type WITHDRAWAL and the
deposit row is relabelled twice — see the counterexample. -/
theorem transfer_relabel_types (s : Bank) (user n m : Nat) (amount : Int)
    (d : String) (fa ta : Account)
    (hfa : lookupAccount s n (some user) = some fa)
    (hta : lookupAccount s m none = some ta)
    (hne : ta.account_number ≠ fa.account_number)
    (hamt : 0 < amount)
    (hfunds : get_minimum_balance fa ≤ fa.balance - amount)
    (hclock : ∀ t ∈ s.ledger, t.timestamp < s.clock) :
    (transfer_money s user n m amount d).2 = none ∧
    (transfer_money s user n m amount d).1.ledger
      = s.ledger ++ [transferOutTxn fa amount m d s.clock,
          transferInTxn ta amount n d (s.clock + 1)] := by
  rw [transfer_money_ok_ne s user n m amount d fa ta hfa hta hne hamt hfunds hclock]
  exact ⟨rfl, rfl⟩

theorem transfer_relabel_types_witness :
    (transfer_money bankA 1 1 2 300 "pay").2 = none :=
  (transfer_relabel_types bankA 1 1 2 300 "pay" ⟨1, 1, AccountKind.savings, 1000, true⟩
    ⟨2, 2, AccountKind.current, 0, true⟩ (by decide) (by decide) (by decide) (by decide)
    (by decide) (by decide)).1

/-- Claim C6: the sender is resolved only among the calling customer's own
accounts (`fa.customer = user`), while the recipient lookup carries no owner
filter; a transfer to an active account owned by a different customer
(`ta.customer ≠ user`) completes successfully given a positive amount and
sufficient funds. -/
theorem transfer_cross_owner_succeeds (s : Bank) (user n m : Nat) (amount : Int)
    (d : String) (fa ta : Account)
    (hfa : lookupAccount s n (some user) = some fa)
    (hta : lookupAccount s m none = some ta)
    (hcross : ta.customer ≠ user)
    (hne : ta.account_number ≠ fa.account_number)
    (hamt : 0 < amount)
    (hfunds : get_minimum_balance fa ≤ fa.balance - amount)
    (hclock : ∀ t ∈ s.ledger, t.timestamp < s.clock) :
    (transfer_money s user n m amount d).2 = none ∧ fa.customer = user := by
  constructor
  · rw [transfer_money_ok_ne s user n m amount d fa ta hfa hta hne hamt hfunds hclock]
  · exact ownerMatches_some (lookupAccount_props hfa).2.2.1

theorem transfer_cross_owner_succeeds_witness :
    (transfer_money bankA 1 1 2 300 "z").2 = none ∧
      (⟨1, 1, AccountKind.savings, 1000, true⟩ : Account).customer = 1 :=
  transfer_cross_owner_succeeds bankA 1 1 2 300 "z"
    ⟨1, 1, AccountKind.savings, 1000, true⟩ ⟨2, 2, AccountKind.current, 0, true⟩
    (by decide) (by decide) (by decide) (by decide) (by decide) (by decide) (by decide)

/-- Claim C7: `create_account` first inserts the row with balance exactly zero
and then credits it through the polymorphic `deposit`, so after a creation with
a positive opening amount (and a fresh account number) the account's balance
equals that amount and the ledger has gained the opening credit as a recorded
DEPOSIT row with `balance_after` equal to the opening amount. -/
theorem create_account_zero_then_deposit (s : Bank) (user : Nat) (k : AccountKind)
    (num : Nat) (amount : Int)
    (hamt : 0 < amount)
    (hfresh : ∀ b ∈ s.accounts, b.account_number ≠ num) :
    (create_account s user k num amount).2 = none ∧
    (create_account s user k num amount).1.accounts
      = s.accounts ++ [⟨num, user, k, amount, true⟩] ∧
    (create_account s user k num amount).1.ledger
      = s.ledger ++ [⟨num, TransactionType.DEPOSIT, amount, "Deposit", s.clock, amount⟩] := by
  have hd := deposit_ok (⟨num, user, k, 0, true⟩ : Account) amount
    { s with accounts := s.accounts ++ [⟨num, user, k, 0, true⟩] } hamt
  have hda : depositedAccount (⟨num, user, k, 0, true⟩ : Account) amount
      = ⟨num, user, k, amount, true⟩ := by
    simp [depositedAccount]
  have hdt : depositTxn (⟨num, user, k, 0, true⟩ : Account) amount s.clock
      = ⟨num, TransactionType.DEPOSIT, amount, "Deposit", s.clock, amount⟩ := by
    simp [depositTxn]
  refine ⟨?_, ?_, ?_⟩
  · simp only [create_account, hd]
  · simp only [create_account, hd, afterDeposit, hda, hdt]
    exact updateRow_append_fresh s.accounts ⟨num, user, k, 0, true⟩
      ⟨num, user, k, amount, true⟩ rfl rfl hfresh
  · simp only [create_account, hd, afterDeposit, hda, hdt]

theorem create_account_zero_then_deposit_witness :
    (create_account bankA 1 AccountKind.savings 7 600).2 = none :=
  (create_account_zero_then_deposit bankA 1 AccountKind.savings 7 600
    (by decide) (by decide)).1

theorem mem_updateRow_of_ne {l : List Account} {b a : Account}
    (hb : b ∈ l) (hne : b.account_number ≠ a.account_number) : b ∈ updateRow l a :=
  List.mem_map.mpr ⟨b, hb, if_neg (fun hc => hne hc.1)⟩

/-- Claim C8 counterexample: the dashboard pool keeps only each account's 5
most recent transactions before merging, so the shown list is not the global
top 10: here the transaction with timestamp 4 is shown while the strictly more
recent transaction with timestamp 12 — belonging to the same customer's active
account 1 — is omitted (it was cut by the per-account `[:5]` truncation). -/
theorem dashboard_recent_counterexample :
    mkTxn 2 4 ∈ recent_transactions bankB 1 ∧
    mkTxn 1 12 ∉ recent_transactions bankB 1 ∧
    mkTxn 1 12 ∈ bankB.ledger ∧
    (⟨1, 1, AccountKind.savings, 1000, true⟩ : Account) ∈ bankB.accounts ∧
    (mkTxn 2 4).timestamp < (mkTxn 1 12).timestamp := by
  decide

/-- Claim C8 (amended): the dashboard list is the first 10 of the merged pool
sorted by timestamp descending, where the pool holds only each active
account's 5 most recent transactions; every transaction shown is at least as
recent as every pool transaction omitted — but a transaction outside its
account's 5 most recent never enters the pool, so it can be omitted even when
globally more recent (see the counterexample). -/
theorem dashboard_recent_sorted (s : Bank) (user : Nat) (x y : Transaction)
    (hx : x ∈ recent_transactions s user)
    (hy : y ∈ (List.insertionSort descByTs (recent_pool s user)).drop 10) :
    y.timestamp ≤ x.timestamp := by
  have hs : List.Sorted descByTs (List.insertionSort descByTs (recent_pool s user)) :=
    List.sorted_insertionSort descByTs (recent_pool s user)
  have hx2 : x ∈ (List.insertionSort descByTs (recent_pool s user)).take 10 := hx
  exact hs.rel_of_mem_take_of_mem_drop hx2 hy

theorem dashboard_recent_sorted_witness :
    (mkTxn 2 3).timestamp ≤ (mkTxn 1 17).timestamp :=
  dashboard_recent_sorted bankB 1 (mkTxn 1 17) (mkTxn 2 3) (by decide) (by decide)

/-- Claim C10: a successful transfer leaves every pre-existing ledger row
untouched (the first `s.ledger.length` positions are unchanged) and appends
exactly two rows; the relabeling mutates only those two freshly created rows —
each account's latest by timestamp — and only in their type and description:
their account, amount, timestamp and balance snapshot are exactly those of the
withdrawal and deposit just performed.  Account rows of uninvolved accounts
are also untouched. -/
theorem transfer_relabel_frame (s : Bank) (user n m : Nat) (amount : Int)
    (d : String) (fa ta : Account)
    (hfa : lookupAccount s n (some user) = some fa)
    (hta : lookupAccount s m none = some ta)
    (hamt : 0 < amount)
    (hfunds : get_minimum_balance fa ≤ fa.balance - amount)
    (hclock : ∀ t ∈ s.ledger, t.timestamp < s.clock) :
    (transfer_money s user n m amount d).2 = none ∧
    (transfer_money s user n m amount d).1.ledger.length = s.ledger.length + 2 ∧
    (∀ i, i < s.ledger.length →
      (transfer_money s user n m amount d).1.ledger[i]? = s.ledger[i]?) ∧
    ((transfer_money s user n m amount d).1.ledger[s.ledger.length]?.map
        (fun t => (t.account, t.amount, t.timestamp, t.balance_after))
      = some (fa.account_number, amount, s.clock, fa.balance - amount)) ∧
    ((transfer_money s user n m amount d).1.ledger[s.ledger.length + 1]?.map
        (fun t => (t.account, t.amount, t.timestamp, t.balance_after))
      = some (ta.account_number, amount, s.clock + 1, ta.balance + amount)) ∧
    (∀ b ∈ s.accounts, b.account_number ≠ fa.account_number →
      b.account_number ≠ ta.account_number →
        b ∈ (transfer_money s user n m amount d).1.accounts) := by
  by_cases hsq : ta.account_number = fa.account_number
  · rw [transfer_money_ok_self s user n m amount d fa ta hfa hta hsq hamt hfunds hclock]
    refine ⟨rfl, ?_, ?_, ?_, ?_, ?_⟩
    · simp [afterTransferSelf]
    · intro i hi
      show (s.ledger ++ [withdrawalTxn fa amount s.clock,
        transferInTxn ta amount n d (s.clock + 1)])[i]? = s.ledger[i]?
      exact List.getElem?_append_left hi
    · show ((s.ledger ++ [withdrawalTxn fa amount s.clock,
        transferInTxn ta amount n d (s.clock + 1)])[s.ledger.length]?.map
          (fun t => (t.account, t.amount, t.timestamp, t.balance_after)))
        = some (fa.account_number, amount, s.clock, fa.balance - amount)
      rw [getElem?_append_pair_fst]
      rfl
    · show ((s.ledger ++ [withdrawalTxn fa amount s.clock,
        transferInTxn ta amount n d (s.clock + 1)])[s.ledger.length + 1]?.map
          (fun t => (t.account, t.amount, t.timestamp, t.balance_after)))
        = some (ta.account_number, amount, s.clock + 1, ta.balance + amount)
      rw [getElem?_append_pair_snd]
      rfl
    · intro b hb h1 h2
      exact mem_updateRow_of_ne (mem_updateRow_of_ne hb h1) h2
  · rw [transfer_money_ok_ne s user n m amount d fa ta hfa hta hsq hamt hfunds hclock]
    refine ⟨rfl, ?_, ?_, ?_, ?_, ?_⟩
    · simp [afterTransferNe]
    · intro i hi
      show (s.ledger ++ [transferOutTxn fa amount m d s.clock,
        transferInTxn ta amount n d (s.clock + 1)])[i]? = s.ledger[i]?
      exact List.getElem?_append_left hi
    · show ((s.ledger ++ [transferOutTxn fa amount m d s.clock,
        transferInTxn ta amount n d (s.clock + 1)])[s.ledger.length]?.map
          (fun t => (t.account, t.amount, t.timestamp, t.balance_after)))
        = some (fa.account_number, amount, s.clock, fa.balance - amount)
      rw [getElem?_append_pair_fst]
      rfl
    · show ((s.ledger ++ [transferOutTxn fa amount m d s.clock,
        transferInTxn ta amount n d (s.clock + 1)])[s.ledger.length + 1]?.map
          (fun t => (t.account, t.amount, t.timestamp, t.balance_after)))
        = some (ta.account_number, amount, s.clock + 1, ta.balance + amount)
      rw [getElem?_append_pair_snd]
      rfl
    · intro b hb h1 h2
      exact mem_updateRow_of_ne (mem_updateRow_of_ne hb h1) h2

theorem transfer_relabel_frame_witness :
    (transfer_money bankA 1 1 2 250 "w").2 = none :=
  (transfer_relabel_frame bankA 1 1 2 250 "w" ⟨1, 1, AccountKind.savings, 1000, true⟩
    ⟨2, 2, AccountKind.current, 0, true⟩ (by decide) (by decide) (by decide)
    (by decide) (by decide)).1
